import Mathlib

/-!
Verification development for the queue worker of `cog`
(`python/cog/director/queue_worker.py`) and its cross-process channel.

The worker is embedded shallowly: the external collaborators (Redis
consumer, HTTP engine, the two `threading.Event` flags, the
`multiprocessing` pipe) are modelled as an environment record, and one
invocation of `QueueWorker.handle_message` is a function from that
environment to an outcome together with the trace of side effects it
performed.  The unbounded `while` loops of the source are given explicit
fuel and return `none` when the fuel runs out; every theorem quantifies
over enough fuel.  Poll-loop time is discretized: iteration `i` of the
dispatch wait loop corresponds to the `i`-th pass through
`while True: ...` in `handle_message`, and the boolean functions of the
environment record what each check (`prediction_event.wait`,
`should_cancel()`, `shutdown_event.is_set()`) returns at that pass.
-/

/-- How often the dispatch loop polls, in milliseconds
(`POLL_INTERVAL = 0.1` seconds in the source). -/
def POLL_INTERVAL_MS : Nat := 100

/-- How often the setup loop polls, in milliseconds
(`SETUP_POLL_INTERVAL = 0.1` seconds in the source). -/
def SETUP_POLL_INTERVAL_MS : Nat := 100

/-- The webhook address the worker writes into the job before submitting
it to the engine (`message["webhook"] = "http://localhost:4900/webhook"`). -/
def webhookOverride : String := "http://localhost:4900/webhook"

/-- A parsed queue message (`json.loads(message_json)`).  `id` is
`message["id"]`, `cancelKey` is `message.get("cancel_key")` (absent keys
give `none`), `webhook` is the caller-supplied `webhook` field if any,
and `payload` holds the remaining arbitrary job fields. -/
structure Message where
  id : String
  cancelKey : Option String
  webhook : Option String
  payload : List (String × String)
deriving DecidableEq, Repr

/-- Result of `self.redis_consumer.get()` followed by `json.loads`:
the stream may be empty (`EmptyRedisStream`), the consumer may raise some
other exception, or a message is returned whose JSON parse may itself
raise (`Except.error` folds in malformed bodies and missing required
keys such as `message["id"]`). -/
inductive DequeueResult
  | empty
  | failure (e : String)
  | ok (messageId : String) (parsed : Except String Message)
deriving Repr

/-- Environment of one `handle_message` invocation: what each external
collaborator does at each observation point.  `submitRaises` is true when
the `POST /predictions` call (after the HTTP client's own bounded
retries) raises, either a network error or `raise_for_status` on a
non-2xx response.  `cancelRaises i` plays the same role for the
`POST /predictions/id/cancel` call issued at dispatch-loop iteration
`i`.  `predComplete i` is what `prediction_event.wait(POLL_INTERVAL)`
returns at iteration `i`, `shouldCancel i` what `should_cancel()`
returns, and `shutdown i` what `shutdown_event.is_set()` returns. -/
structure HandleEnv where
  dequeue : DequeueResult
  pipePending : List Message
  submitRaises : Bool
  predComplete : Nat → Bool
  shouldCancel : Nat → Bool
  cancelRaises : Nat → Bool
  shutdown : Nat → Bool

/-- Constructor state of `QueueWorker.__init__` that is not an external
collaborator: `predict_timeout` is stored on the instance and nothing
else in the class ever reads it.  The collaborators passed to
`__init__` (consumer, events, pipe, HTTP client) are modelled by
`HandleEnv`. -/
structure QueueWorkerConfig where
  predictTimeout : Int
deriving DecidableEq, Repr

/-- Side effects performed by one `handle_message` invocation, in
program order: the sleep taken on an empty queue, the stale messages
drained from the pipe, the messages written to the pipe, whether
`prediction_event.clear()` ran, the bodies POSTed to `/predictions`,
the prediction ids for which a cancel POST was issued, and the message
ids acknowledged to the queue. -/
structure Effects where
  slept : Bool := false
  pipeDrained : List Message := []
  pipeSent : List Message := []
  eventCleared : Bool := false
  submitted : List Message := []
  cancelsSent : List String := []
  acks : List String := []
deriving DecidableEq, Repr

/-- How one `handle_message` invocation ended: returned after the
empty-queue sleep, returned after acknowledging a completed job,
returned because the shutdown flag was observed while dispatched, or
raised an exception (which the caller `start` logs and swallows). -/
inductive Outcome
  | emptyQueue
  | completed
  | shutdownAbort
  | raised (e : String)
deriving DecidableEq, Repr

/-- How the dispatch wait loop (`while True: ...` in `handle_message`)
exited, together with the iteration at which it did: `completed i` is
the `break` taken when `prediction_event.wait` returned true at
iteration `i`; `cancelError i` is the exception propagating from
`resp.raise_for_status()` after a failed cancel POST; `shutdownExit i`
is the `return` taken when `shutdown_event.is_set()` was observed. -/
inductive DispatchExit
  | completed (i : Nat)
  | cancelError (i : Nat)
  | shutdownExit (i : Nat)
deriving DecidableEq, Repr

/-- The dispatch wait loop of `handle_message`, with fuel.  Each
iteration `i` performs, in source order: the bounded wait on
`prediction_event` (break on true), the cancellation check and
best-effort cancel POST (whose `raise_for_status` may raise), and the
shutdown check (return on true).  Returns the exit and the list of
iterations at which a cancel POST was issued. -/
def dispatchLoop (env : HandleEnv) : Nat → Nat → Option (DispatchExit × List Nat)
  | 0, _ => none
  | fuel+1, i =>
    if env.predComplete i then some (.completed i, [])
    else if env.shouldCancel i then
      if env.cancelRaises i then some (.cancelError i, [i])
      else if env.shutdown i then some (.shutdownExit i, [i])
      else
        match dispatchLoop env fuel (i+1) with
        | none => none
        | some (e, cs) => some (e, i :: cs)
    else if env.shutdown i then some (.shutdownExit i, [])
    else dispatchLoop env fuel (i+1)

/-- One invocation of `QueueWorker.handle_message`, as outcome plus
effect trace.  Mirrors the source order: dequeue (empty → sleep and
return; other failure → raise), JSON parse (may raise), drain every
pending pipe message (`while pipe.poll(): pipe.recv()`), send the
message to the pipe — note this happens BEFORE the webhook override, and
`Connection.send` serializes at call time, so the pipe carries the
original message —, clear `prediction_event`, override
`message["webhook"]`, POST the overridden message to `/predictions`
(`raise_for_status` may raise), then run the dispatch wait loop; on its
`break`, acknowledge the message id.  The cancel POSTs target
`message["id"]`. -/
def handleMessage (cfg : QueueWorkerConfig) (env : HandleEnv) (fuel : Nat) :
    Option (Outcome × Effects) :=
  match env.dequeue with
  | .empty => some (.emptyQueue, { slept := true })
  | .failure e => some (.raised e, {})
  | .ok mid parsed =>
    match parsed with
    | .error e => some (.raised e, {})
    | .ok msg =>
      let eff : Effects :=
        { pipeDrained := env.pipePending
          pipeSent := [msg]
          eventCleared := true
          submitted := [{ msg with webhook := some webhookOverride }] }
      if env.submitRaises then some (.raised "submit error", eff)
      else
        match dispatchLoop env fuel 0 with
        | none => none
        | some (e, cs) =>
          let eff := { eff with cancelsSent := cs.map (fun _ => msg.id) }
          match e with
          | .completed _ => some (.completed, { eff with acks := [mid] })
          | .cancelError _ => some (.raised "cancel error", eff)
          | .shutdownExit _ => some (.shutdownAbort, eff)

/-- Whether the dispatch loop runs past iteration `j` without exiting:
the bounded wait returned false, any cancel POST issued succeeded, and
the shutdown flag read false. -/
def passes (env : HandleEnv) (j : Nat) : Bool :=
  !env.predComplete j && (!env.shouldCancel j || !env.cancelRaises j)
    && !env.shutdown j

/-- The exit, if any, that iteration `j` of the dispatch loop takes,
with the source's priority order: completion first, then a raising
cancel POST, then shutdown. -/
def stepExit (env : HandleEnv) (j : Nat) : Option DispatchExit :=
  if env.predComplete j then some (.completed j)
  else if env.shouldCancel j && env.cancelRaises j then some (.cancelError j)
  else if env.shutdown j then some (.shutdownExit j)
  else none

/-- The parsed health-check body: `body["status"]` and, when
`body["setup"]` is not null, `body["setup"]["status"]`. -/
structure HealthBody where
  status : String
  setup : Option String
deriving DecidableEq, Repr

/-- Result of one `GET /health-check` poll during setup: a
`requests.exceptions.RequestException` (caught and swallowed by the
loop), or a response with a status code and — when the code is 200 — a
body whose parse may raise (`Except.error` folds in invalid JSON and
missing keys, which the setup loop does not catch). -/
inductive HealthResult
  | netError
  | resp (status : Nat) (body : Except String HealthBody)

/-- Modelled from the spec: `schema.Status.SUCCEEDED`.  The `schema`
module is not part of the analysed sources; spec section 6 fixes the
readiness literal to the string "succeeded". -/
def statusSucceeded : String := "succeeded"

/-- The readiness condition of the setup loop:
`body["status"] == "healthy" and body["setup"] is not None and
body["setup"]["status"] == schema.Status.SUCCEEDED`. -/
def setupReady (b : HealthBody) : Bool :=
  b.status == "healthy" &&
    (match b.setup with
     | some s => s == statusSucceeded
     | none => false)

/-- How the setup-wait phase of `QueueWorker.start` ended, with the poll
index at which it did: ready (the `break` into the main loop), the
shutdown flag observed at the top of the loop, or an uncaught exception
from parsing a 200 response body. -/
inductive SetupExit
  | ready (i : Nat)
  | shutdownExit (i : Nat)
  | raised (i : Nat) (e : String)
deriving DecidableEq, Repr

/-- The setup-wait loop of `QueueWorker.start`, with fuel: while the
shutdown flag is unset, poll `GET /health-check`; request exceptions are
swallowed and the poll retried after a sleep; a 200 response whose body
reports healthy with setup succeeded breaks into the main loop; any
other response is retried. -/
def setupLoop (sh : Nat → Bool) (hl : Nat → HealthResult) :
    Nat → Nat → Option SetupExit
  | 0, _ => none
  | fuel+1, i =>
    if sh i then some (.shutdownExit i)
    else
      match hl i with
      | .netError => setupLoop sh hl fuel (i+1)
      | .resp status body =>
        if status = 200 then
          match body with
          | .error e => some (.raised i e)
          | .ok b =>
            if setupReady b then some (.ready i)
            else setupLoop sh hl fuel (i+1)
        else setupLoop sh hl fuel (i+1)

/-- The main loop of `QueueWorker.start`
(`while not self.shutdown_event.is_set(): try: self.handle_message()
except Exception: log.exception(...)`), with fuel.  `handle k` is the
outcome and effect trace of the `handle_message` invocation at loop
iteration `k`; an exceptional outcome is logged and swallowed, so the
iteration results are collected and the loop continues regardless.
Returns the list of results of all iterations run before the shutdown
flag was observed. -/
def mainLoop (sh : Nat → Bool) (handle : Nat → Outcome × Effects) :
    Nat → Nat → Option (List (Outcome × Effects))
  | 0, _ => none
  | fuel+1, k =>
    if sh k then some []
    else
      match mainLoop sh handle fuel (k+1) with
      | none => none
      | some rest => some (handle k :: rest)

/-- `QueueWorker.start`: the setup-wait phase followed — unless the
setup phase raised — by the main loop, which begins at the poll index
where setup ended (a shutdown observed during setup makes the main
loop's entry check fail immediately, so no iteration runs). -/
def start (sh : Nat → Bool) (hl : Nat → HealthResult)
    (handle : Nat → Outcome × Effects) (fuelSetup fuelMain : Nat) :
    Option (SetupExit × List (Outcome × Effects)) :=
  match setupLoop sh hl fuelSetup 0 with
  | none => none
  | some (.raised i e) => some (.raised i e, [])
  | some (.shutdownExit i) =>
    match mainLoop sh handle fuelMain i with
    | none => none
    | some tr => some (.shutdownExit i, tr)
  | some (.ready i) =>
    match mainLoop sh handle fuelMain i with
    | none => none
    | some tr => some (.ready i, tr)

/-- Modelled from the spec: the `EventPayload` carried by the
Cross-Process Channel.  `cog/server/eventtypes.py` and
`cog/server/connection.py` are not part of the analysed sources; spec
section 3 describes a closed tagged union naming "prediction output"
and "prediction log" as examples, and the channel test constructs
`eventtypes.PredictionOutput` with a string-keyed mapping payload. -/
inductive EventPayload
  | predictionOutput (output : List (String × Int))
  | predictionLog (line : String)
  | done (canceled : Bool)
deriving DecidableEq, Repr

/-- Modelled from the spec: a channel message is a
`(correlationId, event)` pair (spec section 3; the channel test sends
`("asdf", PredictionOutput(...))`). -/
abbrev ChannelMessage := String × EventPayload

/-- Canonical string framing: length prefix followed by the character
codes. -/
def encStr (s : String) : List Nat :=
  s.length :: s.data.map Char.toNat

/-- Decode a framed string, returning it and the remaining stream. -/
def decStr : List Nat → Option (String × List Nat)
  | [] => none
  | n :: rest =>
    if n ≤ rest.length then
      some (String.mk ((rest.take n).map Char.ofNat), rest.drop n)
    else none

/-- Canonical integer framing: a sign token followed by the magnitude. -/
def encInt (i : Int) : List Nat :=
  if i < 0 then [1, (-i).toNat] else [0, i.toNat]

/-- Decode a framed integer. -/
def decInt : List Nat → Option (Int × List Nat)
  | 0 :: n :: r => some ((n : Int), r)
  | 1 :: n :: r => some (-(n : Int), r)
  | _ => none

/-- Canonical boolean framing. -/
def encBool (b : Bool) : List Nat :=
  [if b then 1 else 0]

/-- Decode a framed boolean. -/
def decBool : List Nat → Option (Bool × List Nat)
  | 0 :: r => some (false, r)
  | 1 :: r => some (true, r)
  | _ => none

/-- Canonical framing of one key-value entry of a structured payload. -/
def encPair (p : String × Int) : List Nat :=
  encStr p.1 ++ encInt p.2

/-- Decode one key-value entry. -/
def decPair (l : List Nat) : Option ((String × Int) × List Nat) :=
  match decStr l with
  | none => none
  | some (s, r) =>
    match decInt r with
    | none => none
    | some (i, r2) => some ((s, i), r2)

/-- Concatenated framing of the entries of a structured payload. -/
def encPairList : List (String × Int) → List Nat
  | [] => []
  | p :: ps => encPair p ++ encPairList ps

/-- Decode a known number of key-value entries. -/
def decPairList : Nat → List Nat → Option (List (String × Int) × List Nat)
  | 0, r => some ([], r)
  | n+1, r =>
    match decPair r with
    | none => none
    | some (p, r2) =>
      match decPairList n r2 with
      | none => none
      | some (ps, r3) => some (p :: ps, r3)

/-- Canonical framing of a structured payload: entry count then
entries. -/
def encPairs (ps : List (String × Int)) : List Nat :=
  ps.length :: encPairList ps

/-- Decode a structured payload. -/
def decPairs : List Nat → Option (List (String × Int) × List Nat)
  | [] => none
  | n :: r => decPairList n r

/-- Canonical framing of an event payload: a tag token then the
variant's fields. -/
def encEvent : EventPayload → List Nat
  | .predictionOutput out => 0 :: encPairs out
  | .predictionLog line => 1 :: encStr line
  | .done canceled => 2 :: encBool canceled

/-- Decode an event payload. -/
def decEvent : List Nat → Option (EventPayload × List Nat)
  | 0 :: r =>
    match decPairs r with
    | none => none
    | some (out, r2) => some (.predictionOutput out, r2)
  | 1 :: r =>
    match decStr r with
    | none => none
    | some (line, r2) => some (.predictionLog line, r2)
  | 2 :: r =>
    match decBool r with
    | none => none
    | some (canceled, r2) => some (.done canceled, r2)
  | _ => none

/-- Canonical framing of a whole channel message: correlation id then
event. -/
def encMsg (m : ChannelMessage) : List Nat :=
  encStr m.1 ++ encEvent m.2

/-- Decode a whole channel message. -/
def decMsg (l : List Nat) : Option (ChannelMessage × List Nat) :=
  match decStr l with
  | none => none
  | some (cid, r) =>
    match decEvent r with
    | none => none
    | some (ev, r2) => some ((cid, ev), r2)

/-- Modelled from the spec: the blocking convention's `send` appends the
canonical frame of the message to the byte stream (spec section 4.3:
both call conventions share one canonical framing/encoding step). -/
def Connection.send (buf : List Nat) (m : ChannelMessage) : List Nat :=
  buf ++ encMsg m

/-- Modelled from the spec: the blocking convention's `receive` decodes
one canonical frame from the front of the stream. -/
def Connection.recv (buf : List Nat) : Option (ChannelMessage × List Nat) :=
  decMsg buf

/-- Modelled from the spec: the suspension-based convention's `send`
writes the same canonical frame as the blocking convention — the async
path must not re-encode or diverge from the blocking path's byte
stream. -/
def AsyncConnection.send (buf : List Nat) (m : ChannelMessage) : List Nat :=
  buf ++ encMsg m

/-- Modelled from the spec: the suspension-based convention's `receive`
decodes the same canonical framing as the blocking convention. -/
def AsyncConnection.recv (buf : List Nat) : Option (ChannelMessage × List Nat) :=
  decMsg buf

/-- A representative job message for exercising the worker on concrete
inputs. -/
def msgW1 : Message :=
  { id := "p1", cancelKey := some "c1", webhook := none
    payload := [("input", "x")] }

/-- Environment in which the queue yields `msgW1`, submission succeeds,
and the completion signal is observed at dispatch iteration 2. -/
def envW1 : HandleEnv :=
  { dequeue := .ok "m1" (.ok msgW1), pipePending := []
    submitRaises := false, predComplete := fun i => i == 2
    shouldCancel := fun _ => false, cancelRaises := fun _ => false
    shutdown := fun _ => false }

/-- The effect trace of `handleMessage` on `envW1`. -/
def effW1 : Effects :=
  { pipeDrained := [], pipeSent := [msgW1], eventCleared := true
    submitted := [{ msgW1 with webhook := some webhookOverride }]
    cancelsSent := [], acks := ["m1"] }

/-- A job message for the cancellation-failure scenario. -/
def msgW2 : Message :=
  { id := "p2", cancelKey := some "c2", webhook := none, payload := [] }

/-- Environment in which cancellation is requested at dispatch
iteration 0, the cancel POST fails, and completion would have been
observed at iteration 1. -/
def envW2 : HandleEnv :=
  { dequeue := .ok "m2" (.ok msgW2), pipePending := []
    submitRaises := false, predComplete := fun i => i == 1
    shouldCancel := fun i => i == 0, cancelRaises := fun _ => true
    shutdown := fun _ => false }

/-- The effect trace of `handleMessage` on `envW2`: one cancel POST,
no acknowledgment. -/
def effW2 : Effects :=
  { pipeDrained := [], pipeSent := [msgW2], eventCleared := true
    submitted := [{ msgW2 with webhook := some webhookOverride }]
    cancelsSent := ["p2"], acks := [] }

/-- A job message whose queue payload already carries a caller-supplied
webhook address. -/
def msgW3 : Message :=
  { id := "p3", cancelKey := some "c3"
    webhook := some "http://upstream.example/hook", payload := [] }

/-- Environment in which `msgW3` is dequeued and completes at the first
dispatch iteration. -/
def envW3 : HandleEnv :=
  { dequeue := .ok "m3" (.ok msgW3), pipePending := []
    submitRaises := false, predComplete := fun _ => true
    shouldCancel := fun _ => false, cancelRaises := fun _ => false
    shutdown := fun _ => false }

/-- The effect trace of `handleMessage` on `envW3`: the pipe receives
the original message, the engine the overridden copy. -/
def effW3 : Effects :=
  { pipeDrained := [], pipeSent := [msgW3], eventCleared := true
    submitted := [{ msgW3 with webhook := some webhookOverride }]
    cancelsSent := [], acks := ["m3"] }

/-- A stale descriptor left unread in the pipe by a previous cycle. -/
def msgW4old : Message :=
  { id := "p0", cancelKey := none, webhook := none, payload := [] }

/-- The job dequeued in the drain-before-send scenario. -/
def msgW4 : Message :=
  { id := "p4", cancelKey := some "c4", webhook := none, payload := [] }

/-- Environment with a stale unread pipe message from a previous
cycle. -/
def envW4 : HandleEnv :=
  { dequeue := .ok "m4" (.ok msgW4), pipePending := [msgW4old]
    submitRaises := false, predComplete := fun _ => true
    shouldCancel := fun _ => false, cancelRaises := fun _ => false
    shutdown := fun _ => false }

/-- The effect trace of `handleMessage` on `envW4`: the stale message
is drained, then the new descriptor is written. -/
def effW4 : Effects :=
  { pipeDrained := [msgW4old], pipeSent := [msgW4], eventCleared := true
    submitted := [{ msgW4 with webhook := some webhookOverride }]
    cancelsSent := [], acks := ["m4"] }

/-- The job in flight when the shutdown signal fires. -/
def msgW5 : Message :=
  { id := "p5", cancelKey := some "c5", webhook := none, payload := [] }

/-- Environment in which the shutdown flag is set while `msgW5` is
dispatched and completion is never observed. -/
def envW5 : HandleEnv :=
  { dequeue := .ok "m5" (.ok msgW5), pipePending := []
    submitRaises := false, predComplete := fun _ => false
    shouldCancel := fun _ => false, cancelRaises := fun _ => false
    shutdown := fun _ => true }

/-- A main-loop iteration body used for concrete shutdown runs. -/
def handleW5 : Nat → Outcome × Effects :=
  fun _ => (.emptyQueue, { slept := true })

/-- A shutdown flag observed true from main-loop iteration 2 on. -/
def shW8 : Nat → Bool :=
  fun k => decide (2 ≤ k)

/-- Main-loop iteration results where the first iteration raises and
the second finds the queue empty. -/
def handleW8 : Nat → Outcome × Effects :=
  fun k => if k == 0 then (.raised "boom", {}) else (.emptyQueue, { slept := true })

/-- The trace collected by the main loop under `shW8` and `handleW8`. -/
def trW8 : List (Outcome × Effects) :=
  [(.raised "boom", {}), (.emptyQueue, { slept := true })]

/-- Health-check responses that error at the network level twice and
then report healthy with setup succeeded. -/
def hlW6 : Nat → HealthResult :=
  fun i =>
    if i = 2 then .resp 200 (.ok { status := "healthy", setup := some "succeeded" })
    else .netError

/-- A shutdown flag that never fires, for the setup-wait scenario. -/
def shW6 : Nat → Bool :=
  fun _ => false

/-- The job dispatched in the cancel-failure-without-signals scenario. -/
def msgW9 : Message :=
  { id := "p9", cancelKey := some "c9", webhook := none, payload := [] }

/-- Environment in which neither completion nor shutdown is ever
observed, but the cancel POST issued at dispatch iteration 0 fails. -/
def envW9 : HandleEnv :=
  { dequeue := .ok "m9" (.ok msgW9), pipePending := []
    submitRaises := false, predComplete := fun _ => false
    shouldCancel := fun i => i == 0, cancelRaises := fun _ => true
    shutdown := fun _ => false }

/-- The effect trace of `handleMessage` on `envW9`. -/
def effW9 : Effects :=
  { pipeDrained := [], pipeSent := [msgW9], eventCleared := true
    submitted := [{ msgW9 with webhook := some webhookOverride }]
    cancelsSent := ["p9"], acks := [] }

/-- The job whose submission to the engine fails. -/
def msgW10 : Message :=
  { id := "p10", cancelKey := some "c10", webhook := none, payload := [] }

/-- Environment in which the `POST /predictions` call raises. -/
def envW10 : HandleEnv :=
  { dequeue := .ok "m10" (.ok msgW10), pipePending := [msgW4old]
    submitRaises := true, predComplete := fun _ => false
    shouldCancel := fun _ => false, cancelRaises := fun _ => false
    shutdown := fun _ => false }

theorem decStr_encStr (s : String) (r : List Nat) :
    decStr (encStr s ++ r) = some (s, r) := by
  have hlen : (s.data.map Char.toNat).length = s.length := by
    rw [List.length_map]
    rfl
  simp only [encStr, List.cons_append, decStr]
  rw [if_pos]
  · rw [show s.length = (s.data.map Char.toNat).length from hlen.symm,
      List.take_left, List.drop_left, List.map_map,
      show (Char.ofNat ∘ Char.toNat) = id from funext Char.ofNat_toNat,
      List.map_id]
  · rw [List.length_append, hlen.symm]
    exact Nat.le_add_right _ _

theorem decInt_encInt (i : Int) (r : List Nat) :
    decInt (encInt i ++ r) = some (i, r) := by
  by_cases h : i < 0
  · simp only [encInt, if_pos h, List.cons_append, List.nil_append, decInt]
    congr 1
    congr 1
    omega
  · simp only [encInt, if_neg h, List.cons_append, List.nil_append, decInt]
    congr 1
    congr 1
    omega

theorem decBool_encBool (b : Bool) (r : List Nat) :
    decBool (encBool b ++ r) = some (b, r) := by
  cases b <;> simp [encBool, decBool]

theorem decPair_encPair (p : String × Int) (r : List Nat) :
    decPair (encPair p ++ r) = some (p, r) := by
  simp [decPair, encPair, List.append_assoc, decStr_encStr, decInt_encInt]

theorem decPairList_encPairList (ps : List (String × Int)) (r : List Nat) :
    decPairList ps.length (encPairList ps ++ r) = some (ps, r) := by
  induction ps generalizing r with
  | nil => simp [encPairList, decPairList]
  | cons p ps ih =>
    simp [encPairList, decPairList, List.append_assoc, decPair_encPair, ih]

theorem decPairs_encPairs (ps : List (String × Int)) (r : List Nat) :
    decPairs (encPairs ps ++ r) = some (ps, r) := by
  simp [decPairs, encPairs, decPairList_encPairList]

theorem decEvent_encEvent (ev : EventPayload) (r : List Nat) :
    decEvent (encEvent ev ++ r) = some (ev, r) := by
  cases ev with
  | predictionOutput out =>
    simp [encEvent, decEvent, decPairs_encPairs]
  | predictionLog line =>
    simp [encEvent, decEvent, decStr_encStr]
  | done canceled =>
    simp [encEvent, decEvent, decBool_encBool]

theorem decMsg_encMsg (m : ChannelMessage) (r : List Nat) :
    decMsg (encMsg m ++ r) = some (m, r) := by
  simp [decMsg, encMsg, List.append_assoc, decStr_encStr, decEvent_encEvent]

/-- Claim C7: for every `ChannelMessage` value — including structured
tagged-union payloads — writing it via the blocking convention and
reading it via the suspension-based convention, and vice versa, yields
a value equal to the original: the two call conventions share one byte
encoding. -/
theorem channel_roundtrip (m : ChannelMessage) :
    AsyncConnection.recv (Connection.send [] m) = some (m, []) ∧
    Connection.recv (AsyncConnection.send [] m) = some (m, []) := by
  constructor <;>
    simpa [Connection.send, Connection.recv, AsyncConnection.send,
      AsyncConnection.recv] using decMsg_encMsg m []

theorem passes_iff (env : HandleEnv) (j : Nat) :
    passes env j = true ↔ stepExit env j = none := by
  unfold passes stepExit
  cases hp : env.predComplete j <;> cases hsc : env.shouldCancel j <;>
    cases hcr : env.cancelRaises j <;> cases hs : env.shutdown j <;> simp

theorem stepExit_of_completed (env : HandleEnv) (j : Nat)
    (hp : env.predComplete j = true) :
    stepExit env j = some (.completed j) := by
  simp [stepExit, hp]

theorem stepExit_of_cancelError (env : HandleEnv) (j : Nat)
    (hp : env.predComplete j = false) (hsc : env.shouldCancel j = true)
    (hcr : env.cancelRaises j = true) :
    stepExit env j = some (.cancelError j) := by
  simp [stepExit, hp, hsc, hcr]

theorem stepExit_of_shutdown (env : HandleEnv) (j : Nat)
    (hp : env.predComplete j = false)
    (hc : env.shouldCancel j = true → env.cancelRaises j = false)
    (hs : env.shutdown j = true) :
    stepExit env j = some (.shutdownExit j) := by
  have hcc : (env.shouldCancel j && env.cancelRaises j) = false := by
    cases hsc : env.shouldCancel j
    · simp
    · simp [hc hsc]
  simp [stepExit, hp, hcc, hs]

theorem stepExit_cases (env : HandleEnv) (j : Nat) (e : DispatchExit)
    (h : stepExit env j = some e) :
    (e = .completed j ∧ env.predComplete j = true) ∨
    (e = .cancelError j ∧ env.predComplete j = false ∧
      env.shouldCancel j = true ∧ env.cancelRaises j = true) ∨
    (e = .shutdownExit j ∧ env.predComplete j = false ∧
      env.shutdown j = true) := by
  unfold stepExit at h
  by_cases hp : env.predComplete j = true
  · rw [if_pos hp] at h
    exact Or.inl ⟨(Option.some.inj h).symm, hp⟩
  · rw [if_neg hp] at h
    have hp' : env.predComplete j = false := by
      revert hp; cases env.predComplete j <;> simp
    by_cases hc : (env.shouldCancel j && env.cancelRaises j) = true
    · rw [if_pos hc] at h
      have hc' := Bool.and_eq_true _ _ |>.mp hc
      exact Or.inr (Or.inl ⟨(Option.some.inj h).symm, hp', hc'.1, hc'.2⟩)
    · rw [if_neg hc] at h
      by_cases hs : env.shutdown j = true
      · rw [if_pos hs] at h
        exact Or.inr (Or.inr ⟨(Option.some.inj h).symm, hp', hs⟩)
      · rw [if_neg hs] at h
        exact absurd h (by simp)

theorem dispatch_reach (env : HandleEnv) (e : DispatchExit) :
    ∀ (fuel i0 i : Nat), i0 ≤ i → i < i0 + fuel →
      (∀ j, i0 ≤ j → j < i → passes env j = true) →
      stepExit env i = some e →
      ∃ cs, dispatchLoop env fuel i0 = some (e, cs) := by
  intro fuel
  induction fuel with
  | zero =>
    intro i0 i h1 h2 _ _
    omega
  | succ fuel ih =>
    intro i0 i h1 h2 hpass hstep
    by_cases heq : i0 = i
    · subst heq
      unfold stepExit at hstep
      by_cases hp : env.predComplete i0 = true
      · rw [if_pos hp] at hstep
        refine ⟨[], ?_⟩
        simp only [dispatchLoop]
        rw [if_pos hp, ← Option.some.inj hstep]
      · rw [if_neg hp] at hstep
        have hp' : env.predComplete i0 = false := by
          revert hp; cases env.predComplete i0 <;> simp
        by_cases hsc : env.shouldCancel i0 = true
        · by_cases hcr : env.cancelRaises i0 = true
          · rw [if_pos (by simp [hsc, hcr])] at hstep
            refine ⟨[i0], ?_⟩
            simp only [dispatchLoop]
            rw [if_neg (by simp [hp']), if_pos hsc, if_pos hcr,
              ← Option.some.inj hstep]
          · have hcr' : env.cancelRaises i0 = false := by
              revert hcr; cases env.cancelRaises i0 <;> simp
            rw [if_neg (by simp [hcr'])] at hstep
            by_cases hs : env.shutdown i0 = true
            · rw [if_pos hs] at hstep
              refine ⟨[i0], ?_⟩
              simp only [dispatchLoop]
              rw [if_neg (by simp [hp']), if_pos hsc, if_neg (by simp [hcr']),
                if_pos hs, ← Option.some.inj hstep]
            · rw [if_neg hs] at hstep
              exact absurd hstep (by simp)
        · have hsc' : env.shouldCancel i0 = false := by
            revert hsc; cases env.shouldCancel i0 <;> simp
          rw [if_neg (by simp [hsc'])] at hstep
          by_cases hs : env.shutdown i0 = true
          · rw [if_pos hs] at hstep
            refine ⟨[], ?_⟩
            simp only [dispatchLoop]
            rw [if_neg (by simp [hp']), if_neg (by simp [hsc']), if_pos hs,
              ← Option.some.inj hstep]
          · rw [if_neg hs] at hstep
            exact absurd hstep (by simp)
    · have hlt : i0 < i := lt_of_le_of_ne h1 heq
      have hpass0 : passes env i0 = true := hpass i0 le_rfl hlt
      have hp : env.predComplete i0 = false := by
        revert hpass0; unfold passes; cases env.predComplete i0 <;> simp
      have hs : env.shutdown i0 = false := by
        revert hpass0; unfold passes; cases env.shutdown i0 <;> simp
      obtain ⟨cs, hcs⟩ := ih (i0+1) i (by omega) (by omega)
        (fun j hj1 hj2 => hpass j (by omega) hj2) hstep
      by_cases hsc : env.shouldCancel i0 = true
      · have hcr : env.cancelRaises i0 = false := by
          revert hpass0; unfold passes; rw [hsc]
          cases env.cancelRaises i0 <;> simp
        refine ⟨i0 :: cs, ?_⟩
        simp only [dispatchLoop]
        rw [if_neg (by simp [hp]), if_pos hsc, if_neg (by simp [hcr]),
          if_neg (by simp [hs]), hcs]
      · have hsc' : env.shouldCancel i0 = false := by
          revert hsc; cases env.shouldCancel i0 <;> simp
        refine ⟨cs, ?_⟩
        simp only [dispatchLoop]
        rw [if_neg (by simp [hp]), if_neg (by simp [hsc']),
          if_neg (by simp [hs]), hcs]

theorem dispatch_inv (env : HandleEnv) :
    ∀ (fuel i0 : Nat) (e : DispatchExit) (cs : List Nat),
      dispatchLoop env fuel i0 = some (e, cs) →
      ∃ i, i0 ≤ i ∧ i < i0 + fuel ∧ stepExit env i = some e ∧
        ∀ j, i0 ≤ j → j < i → passes env j = true := by
  intro fuel
  induction fuel with
  | zero =>
    intro i0 e cs h
    simp [dispatchLoop] at h
  | succ fuel ih =>
    intro i0 e cs h
    simp only [dispatchLoop] at h
    by_cases hp : env.predComplete i0 = true
    · rw [if_pos hp] at h
      simp only [Option.some.injEq, Prod.mk.injEq] at h
      obtain ⟨he, -⟩ := h
      subst he
      exact ⟨i0, le_rfl, by omega, stepExit_of_completed env i0 hp,
        fun j h1 h2 => absurd h1 (by omega)⟩
    · rw [if_neg hp] at h
      have hp' : env.predComplete i0 = false := by
        revert hp; cases env.predComplete i0 <;> simp
      by_cases hsc : env.shouldCancel i0 = true
      · rw [if_pos hsc] at h
        by_cases hcr : env.cancelRaises i0 = true
        · rw [if_pos hcr] at h
          simp only [Option.some.injEq, Prod.mk.injEq] at h
          obtain ⟨he, -⟩ := h
          subst he
          exact ⟨i0, le_rfl, by omega,
            stepExit_of_cancelError env i0 hp' hsc hcr,
            fun j h1 h2 => absurd h1 (by omega)⟩
        · rw [if_neg hcr] at h
          have hcr' : env.cancelRaises i0 = false := by
            revert hcr; cases env.cancelRaises i0 <;> simp
          by_cases hs : env.shutdown i0 = true
          · rw [if_pos hs] at h
            simp only [Option.some.injEq, Prod.mk.injEq] at h
            obtain ⟨he, -⟩ := h
            subst he
            exact ⟨i0, le_rfl, by omega,
              stepExit_of_shutdown env i0 hp' (fun _ => hcr') hs,
              fun j h1 h2 => absurd h1 (by omega)⟩
          · rw [if_neg hs] at h
            have hs' : env.shutdown i0 = false := by
              revert hs; cases env.shutdown i0 <;> simp
            rcases hrec : dispatchLoop env fuel (i0+1) with _ | ⟨e2, cs2⟩
            · rw [hrec] at h
              simp at h
            · rw [hrec] at h
              simp only [Option.some.injEq, Prod.mk.injEq] at h
              obtain ⟨he, -⟩ := h
              subst he
              obtain ⟨i, hi1, hi2, hstep, hpass⟩ := ih (i0+1) e2 cs2 hrec
              refine ⟨i, by omega, by omega, hstep, ?_⟩
              intro j hj1 hj2
              rcases Nat.eq_or_lt_of_le hj1 with rfl | hj
              · unfold passes
                rw [hp', hsc, hcr', hs']
                simp
              · exact hpass j (by omega) hj2
      · rw [if_neg hsc] at h
        have hsc' : env.shouldCancel i0 = false := by
          revert hsc; cases env.shouldCancel i0 <;> simp
        by_cases hs : env.shutdown i0 = true
        · rw [if_pos hs] at h
          simp only [Option.some.injEq, Prod.mk.injEq] at h
          obtain ⟨he, -⟩ := h
          subst he
          exact ⟨i0, le_rfl, by omega,
            stepExit_of_shutdown env i0 hp' (fun hx => absurd hx (by simp [hsc'])) hs,
            fun j h1 h2 => absurd h1 (by omega)⟩
        · rw [if_neg hs] at h
          have hs' : env.shutdown i0 = false := by
            revert hs; cases env.shutdown i0 <;> simp
          obtain ⟨i, hi1, hi2, hstep, hpass⟩ := ih (i0+1) e cs h
          refine ⟨i, by omega, by omega, hstep, ?_⟩
          intro j hj1 hj2
          rcases Nat.eq_or_lt_of_le hj1 with rfl | hj
          · unfold passes
            rw [hp', hsc', hs']
            simp
          · exact hpass j (by omega) hj2

theorem dispatch_cancelError_calls (env : HandleEnv) :
    ∀ (fuel i0 i : Nat) (cs : List Nat),
      dispatchLoop env fuel i0 = some (.cancelError i, cs) → cs ≠ [] := by
  intro fuel
  induction fuel with
  | zero =>
    intro i0 i cs h
    simp [dispatchLoop] at h
  | succ fuel ih =>
    intro i0 i cs h
    simp only [dispatchLoop] at h
    by_cases hp : env.predComplete i0 = true
    · rw [if_pos hp] at h
      simp at h
    · rw [if_neg hp] at h
      by_cases hsc : env.shouldCancel i0 = true
      · rw [if_pos hsc] at h
        by_cases hcr : env.cancelRaises i0 = true
        · rw [if_pos hcr] at h
          simp only [Option.some.injEq, Prod.mk.injEq] at h
          rw [← h.2]
          simp
        · rw [if_neg hcr] at h
          by_cases hs : env.shutdown i0 = true
          · rw [if_pos hs] at h
            simp at h
          · rw [if_neg hs] at h
            rcases hrec : dispatchLoop env fuel (i0+1) with _ | ⟨e2, cs2⟩
            · rw [hrec] at h
              simp at h
            · rw [hrec] at h
              simp only [Option.some.injEq, Prod.mk.injEq] at h
              rw [← h.2]
              simp
      · rw [if_neg hsc] at h
        by_cases hs : env.shutdown i0 = true
        · rw [if_pos hs] at h
          simp at h
        · rw [if_neg hs] at h
          exact ih (i0+1) i cs h

theorem handleMessage_ok (cfg : QueueWorkerConfig) (env : HandleEnv) (fuel : Nat)
    (mid : String) (msg : Message)
    (hdq : env.dequeue = .ok mid (.ok msg))
    (hsub : env.submitRaises = false) :
    handleMessage cfg env fuel =
      match dispatchLoop env fuel 0 with
      | none => none
      | some (e, cs) =>
        match e with
        | .completed _ => some (.completed,
            { pipeDrained := env.pipePending, pipeSent := [msg]
              eventCleared := true
              submitted := [{ msg with webhook := some webhookOverride }]
              cancelsSent := cs.map (fun _ => msg.id), acks := [mid] })
        | .cancelError _ => some (.raised "cancel error",
            { pipeDrained := env.pipePending, pipeSent := [msg]
              eventCleared := true
              submitted := [{ msg with webhook := some webhookOverride }]
              cancelsSent := cs.map (fun _ => msg.id) })
        | .shutdownExit _ => some (.shutdownAbort,
            { pipeDrained := env.pipePending, pipeSent := [msg]
              eventCleared := true
              submitted := [{ msg with webhook := some webhookOverride }]
              cancelsSent := cs.map (fun _ => msg.id) }) := by
  unfold handleMessage
  rw [hdq, hsub]
  rcases dispatchLoop env fuel 0 with _ | ⟨e, cs⟩
  · rfl
  · cases e <;> rfl

/-- Claim C1: in one `handle_message` cycle (job dequeued and parsed,
submission succeeded), the queue handle is acknowledged if and only if
`predictionComplete` was observed true via the bounded wait at some
dispatch iteration that the loop reached — that is, before any earlier
iteration observed shutdown or aborted on a failed cancel.
Acknowledgment never follows mere submission: it requires the observed
completion. -/
theorem ack_iff_completion_observed
    (cfg : QueueWorkerConfig) (env : HandleEnv) (fuel : Nat)
    (mid : String) (msg : Message) (out : Outcome) (eff : Effects)
    (hdq : env.dequeue = .ok mid (.ok msg))
    (hsub : env.submitRaises = false)
    (hrun : handleMessage cfg env fuel = some (out, eff)) :
    eff.acks ≠ [] ↔
      ∃ i, i < fuel ∧ env.predComplete i = true ∧
        ∀ j, j < i → passes env j = true := by
  rw [handleMessage_ok cfg env fuel mid msg hdq hsub] at hrun
  rcases hdl : dispatchLoop env fuel 0 with _ | ⟨e, cs⟩
  · rw [hdl] at hrun
    simp at hrun
  · rw [hdl] at hrun
    cases e with
    | completed i =>
      simp only [Option.some.injEq, Prod.mk.injEq] at hrun
      obtain ⟨-, heff⟩ := hrun
      constructor
      · intro _
        obtain ⟨i2, hi1, hi2, hstep, hpass⟩ := dispatch_inv env fuel 0 _ _ hdl
        rcases stepExit_cases env i2 _ hstep with ⟨-, hpred⟩ | ⟨hbad, -⟩ | ⟨hbad, -⟩
        · exact ⟨i2, by omega, hpred, fun j hj => hpass j (by omega) hj⟩
        · exact absurd hbad (by simp)
        · exact absurd hbad (by simp)
      · intro _
        rw [← heff]
        simp
    | cancelError i =>
      simp only [Option.some.injEq, Prod.mk.injEq] at hrun
      obtain ⟨-, heff⟩ := hrun
      constructor
      · intro hne
        exact absurd (by rw [← heff] : eff.acks = []) hne
      · rintro ⟨i2, hi2, hpred, hpass⟩
        obtain ⟨cs2, hcs2⟩ := dispatch_reach env (.completed i2) fuel 0 i2
          (by omega) (by omega) (fun j _ hj => hpass j hj)
          (stepExit_of_completed env i2 hpred)
        rw [hdl] at hcs2
        simp at hcs2
    | shutdownExit i =>
      simp only [Option.some.injEq, Prod.mk.injEq] at hrun
      obtain ⟨-, heff⟩ := hrun
      constructor
      · intro hne
        exact absurd (by rw [← heff] : eff.acks = []) hne
      · rintro ⟨i2, hi2, hpred, hpass⟩
        obtain ⟨cs2, hcs2⟩ := dispatch_reach env (.completed i2) fuel 0 i2
          (by omega) (by omega) (fun j _ hj => hpass j hj)
          (stepExit_of_completed env i2 hpred)
        rw [hdl] at hcs2
        simp at hcs2

/-- Witness for C1 at a concrete run: the queue yields a job, the
completion signal is observed at dispatch iteration 2, and the
acknowledgment happens — the two sides of the equivalence hold. -/
theorem ack_iff_completion_observed_witness :
    effW1.acks ≠ [] ↔
      ∃ i, i < 5 ∧ envW1.predComplete i = true ∧
        ∀ j, j < i → passes envW1 j = true :=
  ack_iff_completion_observed ⟨60⟩ envW1 5 "m1" msgW1 .completed effW1
    rfl rfl rfl

theorem handleMessage_submit_err (cfg : QueueWorkerConfig) (env : HandleEnv)
    (fuel : Nat) (mid : String) (msg : Message)
    (hdq : env.dequeue = .ok mid (.ok msg))
    (hsub : env.submitRaises = true) :
    handleMessage cfg env fuel = some (.raised "submit error",
      { pipeDrained := env.pipePending, pipeSent := [msg]
        eventCleared := true
        submitted := [{ msg with webhook := some webhookOverride }] }) := by
  unfold handleMessage
  rw [hdq, hsub]
  rfl

theorem handleMessage_effects (cfg : QueueWorkerConfig) (env : HandleEnv)
    (fuel : Nat) (mid : String) (msg : Message) (out : Outcome) (eff : Effects)
    (hdq : env.dequeue = .ok mid (.ok msg))
    (hrun : handleMessage cfg env fuel = some (out, eff)) :
    eff.pipeDrained = env.pipePending ∧ eff.pipeSent = [msg] ∧
    eff.eventCleared = true ∧
    eff.submitted = [{ msg with webhook := some webhookOverride }] := by
  by_cases hsub : env.submitRaises = true
  · rw [handleMessage_submit_err cfg env fuel mid msg hdq hsub] at hrun
    simp only [Option.some.injEq, Prod.mk.injEq] at hrun
    obtain ⟨-, heff⟩ := hrun
    rw [← heff]
    exact ⟨rfl, rfl, rfl, rfl⟩
  · have hsub2 : env.submitRaises = false := by
      revert hsub; cases env.submitRaises <;> simp
    rw [handleMessage_ok cfg env fuel mid msg hdq hsub2] at hrun
    rcases hdl : dispatchLoop env fuel 0 with _ | ⟨e, cs⟩
    · rw [hdl] at hrun
      simp at hrun
    · rw [hdl] at hrun
      cases e <;>
        simp only [Option.some.injEq, Prod.mk.injEq] at hrun <;>
        exact ⟨by rw [← hrun.2], by rw [← hrun.2], by rw [← hrun.2],
          by rw [← hrun.2]⟩

/-- Counterexample for claim C2 as stated: in `envW2` the cancellation
predicate fires at dispatch iteration 0 and the cancel POST fails; the
code raises out of the polling loop (`raise_for_status`), ending the
iteration with an exception — it does not stay in the DISPATCHED cycle,
even though the completion signal would have been observed at the very
next iteration; the job is never acknowledged. -/
theorem cancel_failure_exits_loop_cex :
    handleMessage ⟨60⟩ envW2 5 = some (.raised "cancel error", effW2) ∧
    envW2.predComplete 1 = true ∧
    effW2.acks = [] :=
  ⟨rfl, rfl, rfl⟩

/-- Claim C2 (amended): if the best-effort cancellation HTTP call fails,
the exception propagates out of the dispatched polling loop and ends the
`handle_message` iteration (the outer loop logs and swallows it, so it
is non-fatal to the worker); acknowledge is not triggered, and the
cancel call was indeed issued. -/
theorem cancel_failure_aborts_iteration
    (cfg : QueueWorkerConfig) (env : HandleEnv) (fuel : Nat)
    (mid : String) (msg : Message) (i : Nat)
    (hdq : env.dequeue = .ok mid (.ok msg))
    (hsub : env.submitRaises = false)
    (hreach : ∀ j, j < i → passes env j = true)
    (hpred : env.predComplete i = false)
    (hsc : env.shouldCancel i = true)
    (hcr : env.cancelRaises i = true)
    (hfuel : i < fuel) :
    ∃ eff, handleMessage cfg env fuel = some (.raised "cancel error", eff) ∧
      eff.acks = [] ∧ eff.cancelsSent ≠ [] := by
  obtain ⟨cs, hcs⟩ := dispatch_reach env (.cancelError i) fuel 0 i
    (by omega) (by omega) (fun j _ hj => hreach j hj)
    (stepExit_of_cancelError env i hpred hsc hcr)
  have hne := dispatch_cancelError_calls env fuel 0 i cs hcs
  rw [handleMessage_ok cfg env fuel mid msg hdq hsub, hcs]
  refine ⟨_, rfl, rfl, ?_⟩
  cases cs with
  | nil => exact absurd rfl hne
  | cons a l => simp

/-- Witness for the amended C2 at a concrete run. -/
theorem cancel_failure_aborts_iteration_witness :
    ∃ eff, handleMessage ⟨60⟩ envW2 5 = some (.raised "cancel error", eff) ∧
      eff.acks = [] ∧ eff.cancelsSent ≠ [] :=
  cancel_failure_aborts_iteration ⟨60⟩ envW2 5 "m2" msgW2 0 rfl rfl
    (fun j hj => absurd hj (Nat.not_lt_zero j)) rfl rfl rfl (by omega)

/-- Counterexample for claim C3 as stated: the descriptor written to the
Cross-Process Channel is the message as dequeued — the send happens
before the webhook override, and serialization occurs at send time — so
its webhook field still holds the caller-supplied address, not the
worker's own callback address. -/
theorem pipe_descriptor_original_webhook_cex :
    handleMessage ⟨60⟩ envW3 3 = some (.completed, effW3) ∧
    effW3.pipeSent = [msgW3] ∧
    msgW3.webhook = some "http://upstream.example/hook" ∧
    ¬ msgW3.webhook = some webhookOverride :=
  ⟨rfl, rfl, rfl, by decide⟩

/-- Claim C3 (amended): in a dispatch cycle that reaches the pipe write,
the Cross-Process Channel receives exactly one descriptor — the original
message as dequeued, its webhook field untouched — while the webhook
override is applied only to the copy submitted to the engine. -/
theorem pipe_receives_original_descriptor
    (cfg : QueueWorkerConfig) (env : HandleEnv) (fuel : Nat)
    (mid : String) (msg : Message) (out : Outcome) (eff : Effects)
    (hdq : env.dequeue = .ok mid (.ok msg))
    (hrun : handleMessage cfg env fuel = some (out, eff)) :
    eff.pipeSent = [msg] ∧
    eff.submitted = [{ msg with webhook := some webhookOverride }] := by
  obtain ⟨-, h2, -, h4⟩ :=
    handleMessage_effects cfg env fuel mid msg out eff hdq hrun
  exact ⟨h2, h4⟩

/-- Witness for the amended C3 at a concrete run whose job carries a
caller-supplied webhook. -/
theorem pipe_receives_original_descriptor_witness :
    effW3.pipeSent = [msgW3] ∧
    effW3.submitted = [{ msgW3 with webhook := some webhookOverride }] :=
  pipe_receives_original_descriptor ⟨60⟩ envW3 3 "m3" msgW3 .completed effW3
    rfl rfl

/-- Claim C4: in every cycle that reaches the pipe write, all stale
unread messages are drained from the Cross-Process Channel first, and
then exactly one new descriptor is written — so the pipe afterwards
holds exactly the one new descriptor, never two pending messages. -/
theorem drain_before_send
    (cfg : QueueWorkerConfig) (env : HandleEnv) (fuel : Nat)
    (mid : String) (msg : Message) (out : Outcome) (eff : Effects)
    (hdq : env.dequeue = .ok mid (.ok msg))
    (hrun : handleMessage cfg env fuel = some (out, eff)) :
    eff.pipeDrained = env.pipePending ∧ eff.pipeSent = [msg] ∧
    env.pipePending.drop eff.pipeDrained.length ++ eff.pipeSent = [msg] := by
  obtain ⟨h1, h2, -, -⟩ :=
    handleMessage_effects cfg env fuel mid msg out eff hdq hrun
  refine ⟨h1, h2, ?_⟩
  rw [h1, h2, List.drop_length]
  rfl

/-- Witness for C4 at a concrete run with a stale message pending in
the pipe. -/
theorem drain_before_send_witness :
    effW4.pipeDrained = envW4.pipePending ∧ effW4.pipeSent = [msgW4] ∧
    envW4.pipePending.drop effW4.pipeDrained.length ++ effW4.pipeSent =
      [msgW4] :=
  drain_before_send ⟨60⟩ envW4 3 "m4" msgW4 .completed effW4 rfl rfl

/-- Claim C5: shutdown is terminal.  Once the main loop observes the
shutdown flag it exits immediately with no further `handle_message`
invocation — hence no further dequeue; and a dispatched job whose loop
observes shutdown at an iteration where completion was not observed
(and any cancel call issued there succeeded) is abandoned at that very
iteration — within one poll interval — without acknowledgment. -/
theorem shutdown_terminal
    (sh : Nat → Bool) (handle : Nat → Outcome × Effects) (k fuelM : Nat)
    (cfg : QueueWorkerConfig) (env : HandleEnv) (fuel i : Nat)
    (mid : String) (msg : Message)
    (hsh : sh k = true) (hfm : 0 < fuelM)
    (hdq : env.dequeue = .ok mid (.ok msg))
    (hsub : env.submitRaises = false)
    (hreach : ∀ j, j < i → passes env j = true)
    (hpred : env.predComplete i = false)
    (hnc : env.shouldCancel i = true → env.cancelRaises i = false)
    (hshd : env.shutdown i = true)
    (hfuel : i < fuel) :
    mainLoop sh handle fuelM k = some [] ∧
    ∃ eff, handleMessage cfg env fuel = some (.shutdownAbort, eff) ∧
      eff.acks = [] := by
  constructor
  · rcases fuelM with _ | f
    · omega
    · simp only [mainLoop]
      rw [if_pos hsh]
  · obtain ⟨cs, hcs⟩ := dispatch_reach env (.shutdownExit i) fuel 0 i
      (by omega) (by omega) (fun j _ hj => hreach j hj)
      (stepExit_of_shutdown env i hpred hnc hshd)
    rw [handleMessage_ok cfg env fuel mid msg hdq hsub, hcs]
    exact ⟨_, rfl, rfl⟩

/-- Witness for C5 at a concrete run where the shutdown flag is set
while a job is dispatched. -/
theorem shutdown_terminal_witness :
    mainLoop (fun _ => true) handleW5 1 0 = some [] ∧
    ∃ eff, handleMessage ⟨60⟩ envW5 1 = some (.shutdownAbort, eff) ∧
      eff.acks = [] :=
  shutdown_terminal (fun _ => true) handleW5 0 1 ⟨60⟩ envW5 1 0 "m5" msgW5
    rfl (by omega) rfl rfl (fun j hj => absurd hj (Nat.not_lt_zero j)) rfl
    (fun _ => rfl) rfl (by omega)

/-- Claim C6: the setup-wait loop breaks into the main loop only on a
200 health-check response whose body reports overall status "healthy"
and a non-null setup sub-status "succeeded"; and a network-level error
during this polling is swallowed — the loop simply retries at the next
poll index. -/
theorem setup_ready_conditions
    (sh : Nat → Bool) (hl : Nat → HealthResult) (fuel i0 i : Nat)
    (h : setupLoop sh hl fuel i0 = some (.ready i)) :
    (sh i = false ∧ ∃ b, hl i = .resp 200 (.ok b) ∧
      b.status = "healthy" ∧ b.setup = some statusSucceeded) ∧
    (∀ j f, sh j = false → hl j = .netError →
      setupLoop sh hl (f+1) j = setupLoop sh hl f (j+1)) := by
  constructor
  · induction fuel generalizing i0 with
    | zero => simp [setupLoop] at h
    | succ fuel ih =>
      simp only [setupLoop] at h
      by_cases hs : sh i0 = true
      · rw [if_pos hs] at h
        simp at h
      · rw [if_neg hs] at h
        have hs2 : sh i0 = false := by
          revert hs; cases sh i0 <;> simp
        split at h
        · exact ih _ h
        · rename_i st body hh
          by_cases h200 : st = 200
          · rw [if_pos h200] at h
            split at h
            · simp at h
            · rename_i b
              by_cases hrdy : setupReady b = true
              · rw [if_pos hrdy] at h
                simp only [Option.some.injEq, SetupExit.ready.injEq] at h
                subst h
                unfold setupReady at hrdy
                obtain ⟨h1, h2⟩ := Bool.and_eq_true _ _ |>.mp hrdy
                simp only [beq_iff_eq] at h1
                refine ⟨hs2, b, ?_, h1, ?_⟩
                · rw [hh, h200]
                · rcases hset : b.setup with _ | s
                  · rw [hset] at h2
                    simp at h2
                  · rw [hset] at h2
                    simp only [beq_iff_eq] at h2
                    rw [h2]
              · rw [if_neg hrdy] at h
                exact ih _ h
          · rw [if_neg h200] at h
            exact ih _ h
  · intro j f hsj hhj
    simp only [setupLoop]
    rw [if_neg (by simp [hsj]), hhj]

/-- Witness for C6 at a concrete run: two network errors are retried,
then readiness is observed at poll index 2. -/
theorem setup_ready_conditions_witness :
    (shW6 2 = false ∧ ∃ b, hlW6 2 = .resp 200 (.ok b) ∧
      b.status = "healthy" ∧ b.setup = some statusSucceeded) ∧
    (∀ j f, shW6 j = false → hlW6 j = .netError →
      setupLoop shW6 hlW6 (f+1) j = setupLoop shW6 hlW6 f (j+1)) :=
  setup_ready_conditions shW6 hlW6 5 0 2 rfl

/-- Claim C8: the outer loop is a catch-all boundary.  Every iteration's
result — including exceptional ones — is logged-and-swallowed and the
loop continues: the collected trace records each iteration's result
verbatim, the loop runs exactly until the first observation of the
shutdown flag, and the exit point is the same for any alternative
sequence of iteration results — a single job's failure never terminates
the worker. -/
theorem loop_swallows_failures
    (sh : Nat → Bool) (handle : Nat → Outcome × Effects) (fuel k : Nat)
    (tr : List (Outcome × Effects))
    (h : mainLoop sh handle fuel k = some tr) :
    sh (k + tr.length) = true ∧
    (∀ j, j < tr.length → sh (k + j) = false ∧
      tr[j]? = some (handle (k + j))) ∧
    (∀ handle2, ∃ tr2, mainLoop sh handle2 fuel k = some tr2 ∧
      tr2.length = tr.length) := by
  induction fuel generalizing k tr with
  | zero => simp [mainLoop] at h
  | succ fuel ih =>
    simp only [mainLoop] at h
    by_cases hs : sh k = true
    · rw [if_pos hs] at h
      simp only [Option.some.injEq] at h
      subst h
      refine ⟨by simpa using hs, ?_, ?_⟩
      · intro j hj
        simp at hj
      · intro handle2
        refine ⟨[], ?_, rfl⟩
        simp only [mainLoop]
        rw [if_pos hs]
    · rw [if_neg hs] at h
      have hs2 : sh k = false := by
        revert hs; cases sh k <;> simp
      rcases hrec : mainLoop sh handle fuel (k+1) with _ | tr2
      · rw [hrec] at h
        simp at h
      · rw [hrec] at h
        simp only [Option.some.injEq] at h
        subst h
        obtain ⟨ih1, ih2, ih3⟩ := ih (k+1) tr2 hrec
        refine ⟨?_, ?_, ?_⟩
        · have he : k + (handle k :: tr2).length = (k+1) + tr2.length := by
            simp
            omega
          rw [he]
          exact ih1
        · intro j hj
          cases j with
          | zero =>
            refine ⟨by simpa using hs2, ?_⟩
            simp
          | succ j2 =>
            have hj2 : j2 < tr2.length := by
              simpa using hj
            obtain ⟨ha, hb⟩ := ih2 j2 hj2
            have he : k + (j2 + 1) = (k+1) + j2 := by omega
            refine ⟨?_, ?_⟩
            · rw [he]
              exact ha
            · simpa [he] using hb
        · intro handle2
          obtain ⟨tr3, htr3, hlen⟩ := ih3 handle2
          refine ⟨handle2 k :: tr3, ?_, by simp [hlen]⟩
          simp only [mainLoop]
          rw [if_neg hs, htr3]

/-- Witness for C8 at a concrete run whose first iteration raises: the
loop swallows it, runs one more iteration, and exits at the first true
reading of the shutdown flag. -/
theorem loop_swallows_failures_witness :
    shW8 (0 + trW8.length) = true ∧
    (∀ j, j < trW8.length → shW8 (0 + j) = false ∧
      trW8[j]? = some (handleW8 (0 + j))) ∧
    (∀ handle2, ∃ tr2, mainLoop shW8 handle2 5 0 = some tr2 ∧
      tr2.length = trW8.length) :=
  loop_swallows_failures shW8 handleW8 5 0 trW8 rfl

/-- Counterexample for claim C9 as stated: with neither the completion
signal nor the shutdown signal ever firing, the dispatch loop still
exits — at iteration 0, via the exception from a failing cancel POST —
so completion and shutdown are not the only exits from DISPATCHED. -/
theorem dispatch_exit_without_signals_cex :
    dispatchLoop envW9 5 0 = some (.cancelError 0, [0]) ∧
    envW9.predComplete 0 = false ∧ envW9.shutdown 0 = false ∧
    handleMessage ⟨60⟩ envW9 5 = some (.raised "cancel error", effW9) :=
  ⟨rfl, rfl, rfl, rfl⟩

/-- Claim C9 (amended): the `predict_timeout` constructor argument has
no influence on observable behavior — `handle_message` is the same
function for any two values — and the dispatch loop exits only on an
observed completion signal, an observed shutdown signal, or the
exception raised by a failing cancellation call; no per-job timeout
exists. -/
theorem no_timeout_and_dispatch_exits
    (t u : Int) (env : HandleEnv) (fuel i0 : Nat)
    (e : DispatchExit) (cs : List Nat)
    (h : dispatchLoop env fuel i0 = some (e, cs)) :
    handleMessage ⟨t⟩ env fuel = handleMessage ⟨u⟩ env fuel ∧
    (∀ i, e = .completed i → env.predComplete i = true) ∧
    (∀ i, e = .cancelError i →
      env.shouldCancel i = true ∧ env.cancelRaises i = true) ∧
    (∀ i, e = .shutdownExit i → env.shutdown i = true) := by
  obtain ⟨j, hj1, hj2, hstep, hpass⟩ := dispatch_inv env fuel i0 e cs h
  rcases stepExit_cases env j e hstep with ⟨he, hv⟩ | ⟨he, -, hv1, hv2⟩ |
    ⟨he, -, hv⟩
  · subst he
    refine ⟨rfl, ?_, ?_, ?_⟩
    · intro i hi
      rw [← DispatchExit.completed.inj hi]
      exact hv
    · intro i hi
      exact absurd hi (by simp)
    · intro i hi
      exact absurd hi (by simp)
  · subst he
    refine ⟨rfl, ?_, ?_, ?_⟩
    · intro i hi
      exact absurd hi (by simp)
    · intro i hi
      rw [← DispatchExit.cancelError.inj hi]
      exact ⟨hv1, hv2⟩
    · intro i hi
      exact absurd hi (by simp)
  · subst he
    refine ⟨rfl, ?_, ?_, ?_⟩
    · intro i hi
      exact absurd hi (by simp)
    · intro i hi
      exact absurd hi (by simp)
    · intro i hi
      rw [← DispatchExit.shutdownExit.inj hi]
      exact hv

/-- Witness for the amended C9 at a concrete run in which the loop
exits through a failing cancel call while neither signal ever fires. -/
theorem no_timeout_and_dispatch_exits_witness :
    handleMessage ⟨30⟩ envW9 5 = handleMessage ⟨60⟩ envW9 5 ∧
    (∀ i, DispatchExit.cancelError 0 = .completed i →
      envW9.predComplete i = true) ∧
    (∀ i, DispatchExit.cancelError 0 = .cancelError i →
      envW9.shouldCancel i = true ∧ envW9.cancelRaises i = true) ∧
    (∀ i, DispatchExit.cancelError 0 = .shutdownExit i →
      envW9.shutdown i = true) :=
  no_timeout_and_dispatch_exits 30 60 envW9 5 0 (.cancelError 0) [0] rfl

/-- Claim C10: when the submission POST fails, the side effects already
performed in the iteration are not rolled back — the descriptor was
already written to the pipe and `prediction_event` already cleared —
the job is not acknowledged, and the iteration ends with the raised
error. -/
theorem submit_failure_no_rollback
    (cfg : QueueWorkerConfig) (env : HandleEnv) (fuel : Nat)
    (mid : String) (msg : Message)
    (hdq : env.dequeue = .ok mid (.ok msg))
    (hsub : env.submitRaises = true) :
    ∃ eff, handleMessage cfg env fuel = some (.raised "submit error", eff) ∧
      eff.pipeSent = [msg] ∧ eff.eventCleared = true ∧ eff.acks = [] ∧
      eff.submitted = [{ msg with webhook := some webhookOverride }] ∧
      eff.pipeDrained = env.pipePending := by
  rw [handleMessage_submit_err cfg env fuel mid msg hdq hsub]
  exact ⟨_, rfl, rfl, rfl, rfl, rfl, rfl⟩

/-- Witness for C10 at a concrete run with a failing submission. -/
theorem submit_failure_no_rollback_witness :
    ∃ eff, handleMessage ⟨60⟩ envW10 3 = some (.raised "submit error", eff) ∧
      eff.pipeSent = [msgW10] ∧ eff.eventCleared = true ∧ eff.acks = [] ∧
      eff.submitted = [{ msgW10 with webhook := some webhookOverride }] ∧
      eff.pipeDrained = envW10.pipePending :=
  submit_failure_no_rollback ⟨60⟩ envW10 3 "m10" msgW10 rfl rfl
